import Mathlib

/-!
Shallow embedding of `src/information_access.py`.

The repository contains three independent fetchers:
  * `access_json_api`        : GET a JSON endpoint, sample first 3 records x 5 fields
  * `download_and_read_xml`  : GET bytes, write a temp file, parse XML, sample rows
  * `access_csv_with_pandas` : GET bytes, write a temp file, load a frame, report

External effects (HTTP transport together with `raise_for_status` and the
body decoders of the third-party libraries) are modelled as oracles carried
by a `World` record: an `Except String` value stands for "raised an
exception with this message".  The filesystem is an association list from
path to byte content.  Console output is modelled as a list of structured
output events, one per `print` in the source.
-/

/-- Values produced by Python's `json.loads`: `None`, `bool`, numbers,
`str`, `list`, `dict`.  Numbers are modelled as integers (no claim touches
fractional values).  An `obj` models a `dict`, so its keys are distinct and
listed in insertion order. -/
inductive Json where
  | null
  | bool (b : Bool)
  | num (n : Int)
  | str (s : String)
  | arr (elems : List Json)
  | obj (fields : List (String × Json))

mutual

/-- Python `repr` of a decoded JSON value (escaping of special characters
inside string literals is not modelled; no claim involves such strings). -/
def pyRepr : Json → String
  | .null => "None"
  | .bool true => "True"
  | .bool false => "False"
  | .num n => toString n
  | .str s => "\x27" ++ s ++ "\x27"
  | .arr xs => "[" ++ pyReprList xs ++ "]"
  | .obj kvs => "\x7b" ++ pyReprObj kvs ++ "\x7d"

/-- Comma-separated reprs of the elements of a Python list. -/
def pyReprList : List Json → String
  | [] => ""
  | [x] => pyRepr x
  | x :: xs => pyRepr x ++ ", " ++ pyReprList xs

/-- Comma-separated `'key': repr(value)` entries of a Python dict. -/
def pyReprObj : List (String × Json) → String
  | [] => ""
  | [(k, v)] => "\x27" ++ k ++ "\x27: " ++ pyRepr v
  | (k, v) :: kvs => "\x27" ++ k ++ "\x27: " ++ pyRepr v ++ ", " ++ pyReprObj kvs

end

/-- Python `str` of a decoded JSON value: identical to `repr` except that a
top-level string is rendered without quotes. -/
def pyStr : Json → String
  | .str s => s
  | j => pyRepr j

/-- Python iteration (`enumerate(x)`): lists yield their elements, dicts
their keys, strings their characters (as one-character strings); any other
value raises `TypeError` (`none`). -/
def pyEnum : Json → Option (List Json)
  | .arr xs => some xs
  | .obj kvs => some (kvs.map (fun kv => Json.str kv.1))
  | .str s => some (s.data.map (fun c => Json.str (String.singleton c)))
  | _ => none

/-- Contiguous-substring test on character lists, used for Python's
`needle in haystack` on strings. -/
def subOccurs (needle : List Char) : List Char → Bool
  | [] => needle.isEmpty
  | c :: t => needle.isPrefixOf (c :: t) || subOccurs needle t

/-- First value bound to key `k` in an association list (a `dict` has
distinct keys, so this is the value of `k`). -/
def lookupKey (kvs : List (String × Json)) (k : String) : Option Json :=
  (kvs.find? (fun kv => kv.1 == k)).map (fun kv => kv.2)

/-- Python `k in x`: key test for dicts, membership for lists, substring
test for strings; `TypeError` for any other value. -/
def pyContains (j : Json) (k : String) : Except String Bool :=
  match j with
  | .obj kvs => .ok (kvs.any (fun kv => kv.1 == k))
  | .arr xs => .ok (xs.any (fun x => match x with | .str s => s == k | _ => false))
  | .str s => .ok (subOccurs k.data s.data)
  | _ => .error "TypeError: argument of type is not iterable"

/-- Python `x[k]` with a string key: dict lookup (`KeyError` when absent);
`TypeError` on lists, strings and scalars. -/
def pyIndex (j : Json) (k : String) : Except String Json :=
  match j with
  | .obj kvs =>
    match lookupKey kvs k with
    | some v => .ok v
    | none => .error ("KeyError: " ++ k)
  | _ => .error "TypeError: indices must be integers"

/-- `str(data)[:500] + "..." if len(str(data)) > 500 else str(data)`
(line 67 of the source). -/
def strTrunc (s : String) : String :=
  if s.length > 500 then s.take 500 ++ "..." else s

/-! ### Filesystem model -/

/-- The on-disk state: path to byte content. -/
abbrev Fs := List (String × List Nat)

/-- `open(p, 'wb')` followed by a full write: truncates/overwrites an
existing file of the same name, otherwise creates it. -/
def fsWrite (fs : Fs) (p : String) (b : List Nat) : Fs :=
  if fs.any (fun q => q.1 == p) then
    fs.map (fun q => if q.1 == p then (p, b) else q)
  else fs ++ [(p, b)]

/-- `os.path.exists(p)`. -/
def fsExists (fs : Fs) (p : String) : Bool :=
  fs.any (fun q => q.1 == p)

/-- `os.remove(p)`. -/
def fsRemove (fs : Fs) (p : String) : Fs :=
  fs.filter (fun q => !(q.1 == p))

/-! ### JSON fetcher (`access_json_api`, lines 18-72) -/

/-- The hard-coded JSON endpoint. -/
def jsonApiUrl : String :=
  "https://data.wa.gov/api/views/f6w7-q2d2/rows.json?accessType=DOWNLOAD"

/-- One console event per `print` in `access_json_api`. -/
inductive JOut where
  | accessing (url : String)
  | sampleHeader
  | totalRecords (n : Nat)
  | recHeader (i : Nat)
  | field (j : Nat) (v : Json)
  | preview (s : String)
  | errorMsg (s : String)

/-- True exactly on the per-record header events. -/
def isRecHeaderJ : JOut → Bool
  | .recHeader _ => true
  | _ => false

/-- The record loop of lines 55-62: for each record print a header, then
`for j, value in enumerate(record): if j < 5: print(...)`.  A
non-iterable record raises `TypeError` after its header is printed. -/
def jsonLoop : Nat → List Json → List JOut × Except String Unit
  | _, [] => ([], .ok ())
  | i, r :: rs =>
    match pyEnum r with
    | none => ([.recHeader i], .error "TypeError: object is not iterable")
    | some xs =>
      let rest := jsonLoop (i + 1) rs
      (.recHeader i ::
        ((xs.enum.filter (fun q => q.1 < 5)).map (fun q => JOut.field q.1 q.2)
          ++ rest.1),
       rest.2)

/-- The compound condition of line 50,
`"data" in data and isinstance(data["data"], list) and len(data["data"]) > 0`,
with Python's short-circuit evaluation: `.ok (some l)` when the structured
branch is taken with list `l`, `.ok none` when the preview branch is taken,
`.error` when evaluating the condition itself raises. -/
def jsonCond (data : Json) : Except String (Option (List Json)) :=
  match pyContains data "data" with
  | .error e => .error e
  | .ok false => .ok none
  | .ok true =>
    match pyIndex data "data" with
    | .error e => .error e
    | .ok (.arr l) => if l.length > 0 then .ok (some l) else .ok none
    | .ok _ => .ok none

/-- Body of `access_json_api` up to (but outside of) the `except` handler:
the console events printed so far plus either the returned document or the
raised exception. -/
def access_json_api_body (http : Except String Json) :
    List JOut × Except String Json :=
  match http with
  | .error e => ([.accessing jsonApiUrl], .error e)
  | .ok data =>
    let out0 : List JOut := [.accessing jsonApiUrl, .sampleHeader]
    match jsonCond data with
    | .error e => (out0, .error e)
    | .ok none => (out0 ++ [.preview (strTrunc (pyStr data))], .ok data)
    | .ok (some l) =>
      let lp := jsonLoop 0 (l.take 3)
      (out0 ++ [.totalRecords l.length] ++ lp.1,
       match lp.2 with
       | .ok _ => .ok data
       | .error e => .error e)

/-- `access_json_api`: the body wrapped in the catch-all `except` of lines
70-72.  The function performs no filesystem operation, so the `Fs`
parameter is threaded through untouched. -/
def access_json_api (http : Except String Json) (fs : Fs) :
    List JOut × Fs × Option Json :=
  match access_json_api_body http with
  | (out, .ok d) => (out, fs, some d)
  | (out, .error e) =>
    (out ++ [.errorMsg ("Error accessing JSON API: " ++ e)], fs, none)

/-! ### XML fetcher (`download_and_read_xml`, lines 75-146) -/

/-- An element of the parse tree produced by `xml.etree.ElementTree`:
a tag, optional text, and the list of direct children in document order. -/
inductive XElem where
  | mk (tag : String) (text : Option String) (children : List XElem)

/-- Tag of an element. -/
def XElem.tag : XElem → String
  | .mk t _ _ => t

/-- Text of an element (`child.text`, `None` when absent). -/
def XElem.text : XElem → Option String
  | .mk _ t _ => t

/-- Direct children of an element, in document order. -/
def XElem.children : XElem → List XElem
  | .mk _ _ cs => cs

mutual

/-- `root.findall('.//row')` (line 114): every descendant element (the
root itself excluded) whose tag is exactly `row`, in document order. -/
def findRowsE : XElem → List XElem
  | .mk _ _ cs => findRowsL cs

/-- Document-order row search over a forest: each element precedes its own
descendants. -/
def findRowsL : List XElem → List XElem
  | [] => []
  | c :: cs =>
    (if c.tag == "row" then [c] else []) ++ findRowsE c ++ findRowsL cs

end

/-- Line 129: `child.tag.split('}')[-1] if '}' in child.tag else child.tag`
— strip everything up to and including the last `\x7d` of the tag (the
last segment of the split is the character run after the last brace,
computed here directly on the character list). -/
def stripTag (tag : String) : String :=
  if tag.data.contains '\x7d' then
    String.mk ((tag.data.reverse.takeWhile (fun c => !(c == '\x7d'))).reverse)
  else tag

/-- A sampled record: the dict built on lines 123-133, as an insertion-order
association list from stripped tag to text. -/
abbrev Dict := List (String × Option String)

/-- Python `record[tag] = value`: overwrite in place when the key exists,
append otherwise. -/
def dictInsert (d : Dict) (k : String) (v : Option String) : Dict :=
  if d.any (fun q => q.1 == k) then
    d.map (fun q => if q.1 == k then (k, v) else q)
  else d ++ [(k, v)]

/-- `record.get(k)`-style lookup: `some v` when the key is bound to `v`. -/
def dictLookup (d : Dict) (k : String) : Option (Option String) :=
  (d.find? (fun q => q.1 == k)).map (fun q => q.2)

/-- One console event per `print` in `download_and_read_xml`. -/
inductive XOut where
  | downloading (url : String)
  | downloaded (file : String)
  | found (n : Nat)
  | sampleHeader
  | recHeader (i : Nat)
  | field (tag : String) (text : Option String)
  | removed (file : String)
  | errorMsg (s : String)
deriving DecidableEq

/-- The inner field loop of lines 126-133: walk all children keeping a
`field_count`; a child is printed and recorded exactly while the count is
below 5 (so exactly the first 5 children).  Returns the printed field
events and the built record. -/
def xmlRowAux : List XElem → Nat → Dict → List XOut × Dict
  | [], _, r => ([], r)
  | c :: cs, n, r =>
    if n < 5 then
      let t := stripTag c.tag
      let rest := xmlRowAux cs (n + 1) (dictInsert r t c.text)
      (XOut.field t c.text :: rest.1, rest.2)
    else xmlRowAux cs n r

/-- The record built for one sampled row. -/
def xmlRecord (row : XElem) : Dict :=
  (xmlRowAux row.children 0 []).2

/-- The sampling loop of lines 121-135 over `rows[:3]`: per row a header
event, the field events, and the accumulated `sample_records`. -/
def xmlSampleLoop : List XElem → Nat → List XOut × List Dict
  | [], _ => ([], [])
  | row :: rest, i =>
    let rowRes := xmlRowAux row.children 0 []
    let restRes := xmlSampleLoop rest (i + 1)
    (XOut.recHeader i :: rowRes.1 ++ restRes.1, rowRes.2 :: restRes.2)

/-- The hard-coded XML endpoint. -/
def xmlUrl : String :=
  "https://data.wa.gov/api/views/f6w7-q2d2/rows.xml?accessType=DOWNLOAD"

/-- The fixed temporary-file name used by the XML path. -/
def xmlTempFile : String := "electric_vehicle_data.xml"

/-- External effects of the XML fetcher: the HTTP GET combined with
`raise_for_status` (`.error` = transport failure or non-2xx status), and
the `ElementTree` parser as a function of the downloaded bytes (the file
parsed on line 110 holds exactly the bytes written on line 105). -/
structure XmlWorld where
  http : Except String (List Nat)
  parseXml : List Nat → Except String XElem

/-- Body of `download_and_read_xml` up to (but outside of) the `except`
handler: console events printed so far, filesystem after the run, and the
returned sample or the raised exception.  Note the cleanup of lines
137-140 sits inside the `try` body after sampling, so it is reached only
when no earlier statement raised. -/
def download_and_read_xml_body (w : XmlWorld) (fs : Fs) :
    List XOut × Fs × Except String (List Dict) :=
  match w.http with
  | .error e => ([.downloading xmlUrl], fs, .error e)
  | .ok content =>
    let fs1 := fsWrite fs xmlTempFile content
    let out1 : List XOut := [.downloading xmlUrl, .downloaded xmlTempFile]
    match w.parseXml content with
    | .error e => (out1, fs1, .error e)
    | .ok root =>
      let rows := findRowsE root
      let sampled := xmlSampleLoop (rows.take 3) 0
      let out2 := out1 ++ [XOut.found rows.length, XOut.sampleHeader] ++ sampled.1
      if fsExists fs1 xmlTempFile then
        (out2 ++ [.removed xmlTempFile], fsRemove fs1 xmlTempFile, .ok sampled.2)
      else
        (out2, fs1, .ok sampled.2)

/-- `download_and_read_xml`: the body wrapped in the catch-all `except` of
lines 144-146. -/
def download_and_read_xml (w : XmlWorld) (fs : Fs) :
    List XOut × Fs × Option (List Dict) :=
  match download_and_read_xml_body w fs with
  | (out, fs', .ok v) => (out, fs', some v)
  | (out, fs', .error e) =>
    (out ++ [.errorMsg ("Error downloading and reading XML: " ++ e)], fs', none)

/-! ### CSV fetcher (`access_csv_with_pandas`, lines 149-213) -/

/-- The in-memory frame produced by `pd.read_csv`: column names, row
count, and the library-rendered report strings (`head(3).to_string()` and
`describe()` of the first numeric column) carried opaquely. -/
structure DataFrame where
  columns : List String
  nrows : Nat
  headStr : String
  numericCols : List String
  statsStr : String

/-- One console event per `print` in `access_csv_with_pandas`. -/
inductive COut where
  | downloading (url : String)
  | downloaded (file : String)
  | sampleHeader
  | shape (rows cols : Nat)
  | columnsLine (s : String)
  | headHeader
  | headRows (s : String)
  | statsHeader
  | stats (s : String)
  | removed (file : String)
  | errorMsg (s : String)
deriving DecidableEq

/-- The hard-coded CSV endpoint. -/
def csvUrl : String :=
  "https://data.wa.gov/api/views/f6w7-q2d2/rows.csv?accessType=DOWNLOAD"

/-- The fixed temporary-file name used by the CSV path. -/
def csvTempFile : String := "electric_vehicle_data.csv"

/-- External effects of the CSV fetcher: HTTP GET plus `raise_for_status`,
and `pd.read_csv` as a function of the downloaded bytes. -/
structure CsvWorld where
  http : Except String (List Nat)
  readCsv : List Nat → Except String DataFrame

/-- Body of `access_csv_with_pandas` up to (but outside of) the `except`
handler.  Line 192 always appends `"..."` after the first five column
names; the statistics header of line 199 prints before the
numeric-column test. -/
def access_csv_with_pandas_body (w : CsvWorld) (fs : Fs) :
    List COut × Fs × Except String DataFrame :=
  match w.http with
  | .error e => ([.downloading csvUrl], fs, .error e)
  | .ok content =>
    let fs1 := fsWrite fs csvTempFile content
    let out1 : List COut := [.downloading csvUrl, .downloaded csvTempFile]
    match w.readCsv content with
    | .error e => (out1, fs1, .error e)
    | .ok df =>
      let out2 := out1 ++
        [COut.sampleHeader,
         COut.shape df.nrows df.columns.length,
         COut.columnsLine (String.intercalate ", " (df.columns.take 5) ++ "..."),
         COut.headHeader,
         COut.headRows df.headStr,
         COut.statsHeader] ++
        (if df.numericCols.length > 0 then [COut.stats df.statsStr] else [])
      if fsExists fs1 csvTempFile then
        (out2 ++ [.removed csvTempFile], fsRemove fs1 csvTempFile, .ok df)
      else
        (out2, fs1, .ok df)

/-- `access_csv_with_pandas`: the body wrapped in the catch-all `except`
of lines 211-213. -/
def access_csv_with_pandas (w : CsvWorld) (fs : Fs) :
    List COut × Fs × Option DataFrame :=
  match access_csv_with_pandas_body w fs with
  | (out, fs', .ok v) => (out, fs', some v)
  | (out, fs', .error e) =>
    (out ++ [.errorMsg ("Error accessing CSV with pandas: " ++ e)], fs', none)

/-! ### Helper lemmas -/

theorem enumFrom_filter_lt {α : Type} (k : Nat) (xs : List α) :
    ∀ n, (List.enumFrom n xs).filter (fun q => decide (q.1 < k))
      = List.enumFrom n (xs.take (k - n)) := by
  induction xs with
  | nil => intro n; simp
  | cons x xs ih =>
    intro n
    by_cases h : n < k
    · have hk : k - n = (k - (n + 1)) + 1 := by omega
      rw [hk]
      simp [List.enumFrom, List.filter, h, ih (n + 1)]
    · have hk : k - n = 0 := by omega
      have hk1 : k - (n + 1) = 0 := by omega
      rw [hk]
      have := ih (n + 1)
      rw [hk1] at this
      simp [List.enumFrom, List.filter, h, this]

/-- A key found in an association list makes the `any` key test true. -/
theorem lookupKey_any (kvs : List (String × Json)) (k : String) (v : Json)
    (h : lookupKey kvs k = some v) : kvs.any (fun kv => kv.1 == k) = true := by
  unfold lookupKey at h
  cases hf : kvs.find? (fun kv => kv.1 == k) with
  | none => rw [hf] at h; simp at h
  | some kv =>
    have hp := List.find?_some (p := fun q : String × Json => q.1 == k) (a := kv) hf
    exact List.any_eq_true.mpr ⟨kv, List.mem_of_find?_eq_some hf, hp⟩

/-- The per-record console chunk in closed form: a header followed by the
(index, value) pairs of the first `min 5 (len record)` enumerated items. -/
def jsonChunk (p : Nat × Json) : List JOut :=
  JOut.recHeader p.1 ::
    (((pyEnum p.2).getD []).take 5).enum.map (fun q => JOut.field q.1 q.2)

/-- On lists of iterable records the record loop succeeds and its output
is the concatenation of the per-record chunks. -/
theorem jsonLoop_eq (l : List Json) :
    ∀ n, (∀ r ∈ l, (pyEnum r).isSome = true) →
    jsonLoop n l = ((List.enumFrom n l).flatMap jsonChunk, Except.ok ()) := by
  induction l with
  | nil => intro n _; simp [jsonLoop, List.enumFrom]
  | cons r rs ih =>
    intro n h
    have hr : (pyEnum r).isSome = true := h r (by simp)
    obtain ⟨xs, hxs⟩ := Option.isSome_iff_exists.mp hr
    have hfields : xs.enum.filter (fun q => decide (q.1 < 5)) = (xs.take 5).enum := by
      have := enumFrom_filter_lt 5 xs 0
      simpa [List.enum] using this
    simp [jsonLoop, hxs, ih (n + 1) (fun r hr => h r (List.mem_cons_of_mem _ hr)),
      List.enumFrom, jsonChunk, hfields]

/-- Mapped field events contain no record headers. -/
theorem countP_field_map (qs : List (Nat × Json)) :
    (qs.map (fun q => JOut.field q.1 q.2)).countP isRecHeaderJ = 0 := by
  induction qs with
  | nil => rfl
  | cons q qs ih => simp [List.countP_cons, isRecHeaderJ, ih]

/-- Each chunk contributes exactly one record header. -/
theorem countP_bind_chunk (l : List Json) :
    ∀ n, ((List.enumFrom n l).flatMap jsonChunk).countP isRecHeaderJ = l.length := by
  induction l with
  | nil => intro n; simp [List.enumFrom]
  | cons r rs ih =>
    intro n
    simp [List.enumFrom, jsonChunk, List.countP_cons, List.countP_append,
      isRecHeaderJ, countP_field_map, ih (n + 1)]

/-! ### Claim C1 -/

/-- C1 (amended): for every HTTP-successful JSON response that decodes to
an object containing key "data" whose value is a non-empty list of
iterable records, `access_json_api` prints exactly `min 3 (len data)`
records — each a header followed by the record's first
`min 5 (len record)` positional (index, value) fields in original order —
and returns the full decoded document (not just the sample), touching no
file.  (As literally stated, with no iterability requirement on the
records, the claim fails: see the counterexample.) -/
theorem json_api_success_sample
    (kvs : List (String × Json)) (l : List Json) (fs : Fs)
    (hl : lookupKey kvs "data" = some (Json.arr l))
    (hne : l ≠ [])
    (hen : ∀ r ∈ l, (pyEnum r).isSome = true) :
    access_json_api (.ok (Json.obj kvs)) fs =
      (JOut.accessing jsonApiUrl :: JOut.sampleHeader :: JOut.totalRecords l.length ::
        (List.enumFrom 0 (l.take 3)).flatMap jsonChunk,
       fs, some (Json.obj kvs))
    ∧ ((List.enumFrom 0 (l.take 3)).flatMap jsonChunk).countP isRecHeaderJ
        = min 3 l.length
    ∧ (∀ p ∈ List.enumFrom 0 (l.take 3),
        jsonChunk p = JOut.recHeader p.1 ::
          (((pyEnum p.2).getD []).take 5).enum.map (fun q => JOut.field q.1 q.2)
        ∧ (jsonChunk p).length = 1 + min 5 ((pyEnum p.2).getD []).length) := by
  have hany := lookupKey_any kvs "data" (Json.arr l) hl
  have hpos : l.length > 0 := List.length_pos.mpr hne
  have hloop := jsonLoop_eq (l.take 3) 0 (fun r hr => hen r (List.mem_of_mem_take hr))
  refine ⟨?_, ?_, ?_⟩
  · simp [access_json_api, access_json_api_body, jsonCond, pyContains, pyIndex,
      hany, hl, hpos, hloop, List.enum]
  · rw [countP_bind_chunk (l.take 3) 0, List.length_take]
  · intro p _
    refine ⟨rfl, ?_⟩
    simp [jsonChunk, List.length_take]
    omega

/-- C1 as literally stated is false: the body `{"data": [42]}` is an
HTTP-successful JSON response decoding to an object whose "data" key holds
a non-empty list, yet the code raises `TypeError` on `enumerate(42)`, the
catch-all handler fires, and `None` is returned instead of the full
decoded document (and no complete record is printed). -/
theorem json_api_nonlist_record_returns_none :
    (access_json_api (.ok (Json.obj [("data", Json.arr [Json.num 42])])) []).2.2
        = none
    ∧ (access_json_api (.ok (Json.obj [("data", Json.arr [Json.num 42])])) []).1.getLast?
        = some (JOut.errorMsg
            "Error accessing JSON API: TypeError: object is not iterable") :=
  ⟨rfl, rfl⟩

/-- The end-to-end JSON scenario of the spec, used as the witness body. -/
def c1Doc : Json :=
  Json.obj [("data", Json.arr
    [Json.arr [Json.str "a", Json.str "1", Json.str "x", Json.str "y",
               Json.str "z", Json.str "extra"],
     Json.arr [Json.str "b", Json.str "2"]])]

/-- Witness for C1 on the spec's end-to-end scenario
`{"data": [["a","1","x","y","z","extra"],["b","2"]]}`: the sampled output
is record 0 with fields 0..4 = a,1,x,y,z and record 1 with fields
0,1 = b,2, and the whole document is returned. -/
theorem json_api_success_sample_witness :
    access_json_api (.ok c1Doc) [] =
      ([JOut.accessing jsonApiUrl, JOut.sampleHeader, JOut.totalRecords 2,
        JOut.recHeader 0, JOut.field 0 (Json.str "a"), JOut.field 1 (Json.str "1"),
        JOut.field 2 (Json.str "x"), JOut.field 3 (Json.str "y"),
        JOut.field 4 (Json.str "z"),
        JOut.recHeader 1, JOut.field 0 (Json.str "b"), JOut.field 1 (Json.str "2")],
       [], some c1Doc) := by
  have h := json_api_success_sample
    [("data", Json.arr
      [Json.arr [Json.str "a", Json.str "1", Json.str "x", Json.str "y",
                 Json.str "z", Json.str "extra"],
       Json.arr [Json.str "b", Json.str "2"]])]
    [Json.arr [Json.str "a", Json.str "1", Json.str "x", Json.str "y",
               Json.str "z", Json.str "extra"],
     Json.arr [Json.str "b", Json.str "2"]]
    [] rfl (by simp)
    (by intro r hr
        simp only [List.mem_cons, List.not_mem_nil, or_false] at hr
        rcases hr with h1 | h1 <;> rw [h1] <;> rfl)
  exact h.1

/-! ### Claim C9 -/

/-- C9: for every HTTP-successful JSON response that decodes to an object
whose "data" key maps to an empty list, `access_json_api` takes the
shape-mismatch branch — it prints no structured records, printing the
truncated string preview (first 500 characters) instead — and still
returns the full decoded document rather than `None`. -/
theorem json_api_empty_data_preview
    (kvs : List (String × Json)) (fs : Fs)
    (hl : lookupKey kvs "data" = some (Json.arr [])) :
    access_json_api (.ok (Json.obj kvs)) fs =
      ([JOut.accessing jsonApiUrl, JOut.sampleHeader,
        JOut.preview (strTrunc (pyStr (Json.obj kvs)))],
       fs, some (Json.obj kvs))
    ∧ (access_json_api (.ok (Json.obj kvs)) fs).1.countP isRecHeaderJ = 0 := by
  have hany := lookupKey_any kvs "data" (Json.arr []) hl
  constructor
  · simp [access_json_api, access_json_api_body, jsonCond, pyContains, pyIndex,
      hany, hl]
  · simp [access_json_api, access_json_api_body, jsonCond, pyContains, pyIndex,
      hany, hl, List.countP_cons, isRecHeaderJ]

/-- Witness for C9 at the concrete document `{"data": []}`: the preview
line is the unabridged `str` rendering and the document comes back. -/
theorem json_api_empty_data_preview_witness :
    access_json_api (.ok (Json.obj [("data", Json.arr [])])) [] =
      ([JOut.accessing jsonApiUrl, JOut.sampleHeader,
        JOut.preview "\x7b\x27data\x27: []\x7d"],
       [], some (Json.obj [("data", Json.arr [])])) :=
  (json_api_empty_data_preview [("data", Json.arr [])] [] rfl).1

/-! ### Filesystem lemmas -/

/-- After a write the file exists. -/
theorem fsExists_fsWrite (fs : Fs) (p : String) (b : List Nat) :
    fsExists (fsWrite fs p b) p = true := by
  unfold fsExists fsWrite
  by_cases h : fs.any (fun q => q.1 == p)
  · rw [if_pos h]
    obtain ⟨q, hq, hqp⟩ := List.any_eq_true.mp h
    refine List.any_eq_true.mpr ⟨(p, b), List.mem_map.mpr ⟨q, hq, ?_⟩, by simp⟩
    simp [hqp]
  · rw [if_neg h]
    simp

/-- After a removal the file does not exist. -/
theorem fsExists_fsRemove (fs : Fs) (p : String) :
    fsExists (fsRemove fs p) p = false := by
  unfold fsExists fsRemove
  rw [Bool.eq_false_iff]
  intro h
  obtain ⟨q, hq, hqp⟩ := List.any_eq_true.mp h
  have := (List.mem_filter.mp hq).2
  simp [hqp] at this

/-- A write never touches other paths' presence; unchanged-path form used
for reasoning about successive invocations. -/
theorem fsExists_fsRemove_fsWrite (fs : Fs) (p : String) (b : List Nat) :
    fsExists (fsRemove (fsWrite fs p b) p) p = false :=
  fsExists_fsRemove (fsWrite fs p b) p

/-! ### Dict lemmas -/

/-- One fold step of the record-building loop. -/
def dictStep (d : Dict) (c : XElem) : Dict :=
  dictInsert d (stripTag c.tag) c.text

/-- Looking up an untouched key through the in-place update map. -/
theorem dictLookup_map_update_ne (d : Dict) (k k' : String) (v : Option String)
    (h : ¬ k' = k) :
    dictLookup (d.map (fun q => if q.1 == k then (k, v) else q)) k'
      = dictLookup d k' := by
  induction d with
  | nil => rfl
  | cons q d ih =>
    by_cases hq : q.1 = k
    · have h1 : ¬ (k == k') = true := by simp; exact fun hk => h hk.symm
      have h2 : ¬ (q.1 == k') = true := by simp [hq]; exact fun hk => h hk.symm
      simp only [dictLookup, List.map_cons, List.find?] at *
      rw [if_pos (by simp [hq])]
      simp only [h1, h2]
      simpa [dictLookup] using ih
    · simp only [dictLookup, List.map_cons, List.find?] at *
      rw [if_neg (by simp [hq])]
      by_cases hq' : (q.1 == k') = true
      · simp [hq']
      · simp only [Bool.not_eq_true] at hq'
        simp only [hq']
        simpa [dictLookup] using ih

/-- Looking up the updated key through the in-place update map when the
key is present. -/
theorem dictLookup_map_update_eq (d : Dict) (k : String) (v : Option String)
    (h : d.any (fun q => q.1 == k) = true) :
    dictLookup (d.map (fun q => if q.1 == k then (k, v) else q)) k = some v := by
  induction d with
  | nil => simp at h
  | cons q d ih =>
    by_cases hq : q.1 = k
    · simp only [dictLookup, List.map_cons, List.find?]
      rw [if_pos (by simp [hq])]
      simp
    · simp only [List.any_cons] at h
      rcases Bool.or_eq_true_iff.mp h with h1 | h1
      · exact absurd (by simpa using h1) hq
      · simp only [dictLookup, List.map_cons, List.find?]
        rw [if_neg (by simp [hq])]
        simp only [show (q.1 == k) = false by simp [hq]]
        simpa [dictLookup] using ih h1

/-- `record[k] = v` makes `k` map to `v` and leaves every other key
unchanged. -/
theorem dictLookup_insert (d : Dict) (k k' : String) (v : Option String) :
    dictLookup (dictInsert d k v) k'
      = if k' = k then some v else dictLookup d k' := by
  unfold dictInsert
  by_cases hany : d.any (fun q => q.1 == k) = true
  · rw [if_pos hany]
    by_cases hk : k' = k
    · rw [if_pos hk, hk]
      exact dictLookup_map_update_eq d k v hany
    · rw [if_neg hk]
      exact dictLookup_map_update_ne d k k' v hk
  · rw [if_neg hany]
    by_cases hk : k' = k
    · subst hk
      have hfind : d.find? (fun q => q.1 == k') = none := by
        rw [List.find?_eq_none]
        intro x hx hpx
        exact hany (List.any_eq_true.mpr ⟨x, hx, hpx⟩)
      simp [dictLookup, List.find?_append, hfind]
    · have : ((k, v).1 == k') = false := by
        simp
        exact fun hk2 => hk hk2.symm
      simp [dictLookup, List.find?_append, this, hk, Option.or]
      cases d.find? (fun q => q.1 == k') <;> simp

/-- The counter-guarded field loop processes exactly the first `5 - n`
children: closed form as a `take`/`foldl`. -/
theorem xmlRowAux_eq (cs : List XElem) :
    ∀ (n : Nat) (d : Dict),
    xmlRowAux cs n d
      = ((cs.take (5 - n)).map (fun c => XOut.field (stripTag c.tag) c.text),
         (cs.take (5 - n)).foldl dictStep d) := by
  induction cs with
  | nil => intro n d; simp [xmlRowAux]
  | cons c cs ih =>
    intro n d
    by_cases h : n < 5
    · have hk : 5 - n = (5 - (n + 1)) + 1 := by omega
      rw [hk]
      simp [xmlRowAux, h, ih (n + 1), dictStep]
    · have hk : 5 - n = 0 := by omega
      have hk1 : 5 - (n + 1) = 0 := by omega
      have := ih n d
      rw [hk] at this ⊢
      rw [xmlRowAux]
      rw [if_neg h]
      have := ih n d
      rw [hk] at this
      exact this

/-- The record of a row is the fold of `record[tag] = text` over its first
five children. -/
theorem xmlRecord_eq_foldl (row : XElem) :
    xmlRecord row = (row.children.take 5).foldl dictStep [] := by
  unfold xmlRecord
  rw [xmlRowAux_eq row.children 0 []]

/-- The sampling loop returns exactly the per-row records, in order. -/
theorem xmlSampleLoop_snd (l : List XElem) :
    ∀ i, (xmlSampleLoop l i).2 = l.map xmlRecord := by
  induction l with
  | nil => intro i; rfl
  | cons row rest ih =>
    intro i
    simp [xmlSampleLoop, ih (i + 1), xmlRecord]

/-- After folding insertions, a key maps to the text of the last child
whose stripped tag equals it (later duplicates overwrite earlier ones);
keys never inserted keep their prior binding. -/
theorem dictLookup_foldl (cs : List XElem) :
    ∀ (d : Dict) (t : String),
    dictLookup (cs.foldl dictStep d) t
      = ((cs.filter (fun c => stripTag c.tag == t)).getLast?).elim
          (dictLookup d t) (fun c => some c.text) := by
  induction cs with
  | nil => intro d t; rfl
  | cons c cs ih =>
    intro d t
    rw [List.foldl_cons, ih (dictStep d c) t]
    by_cases hc : stripTag c.tag = t
    · rw [List.filter_cons_of_pos (by simp [hc])]
      cases hrest : (cs.filter (fun c => stripTag c.tag == t)).getLast? with
      | none =>
        have hnil : cs.filter (fun c => stripTag c.tag == t) = [] := by
          cases hf : cs.filter (fun c => stripTag c.tag == t) with
          | nil => rfl
          | cons x xs => rw [hf] at hrest; simp [List.getLast?_concat] at hrest
        rw [hnil]
        simp [dictStep, dictLookup_insert, hc]
      | some c2 =>
        cases hf : cs.filter (fun c => stripTag c.tag == t) with
        | nil => rw [hf] at hrest; simp at hrest
        | cons x xs =>
          rw [hf] at hrest
          simp only [List.getLast?_cons_cons]
          rw [hrest]
          rfl
    · rw [List.filter_cons_of_neg (by simp [hc])]
      cases hrest : (cs.filter (fun c => stripTag c.tag == t)).getLast? with
      | none =>
        simp only [Option.elim]
        simp [dictStep, dictLookup_insert, hc]
        intro h
        exact absurd h.symm hc
      | some c2 => simp

/-- Every pair of an updated dict is an original pair or the inserted one. -/
theorem mem_dictInsert (d : Dict) (k : String) (v : Option String)
    (kv : String × Option String) (h : kv ∈ dictInsert d k v) :
    kv ∈ d ∨ kv = (k, v) := by
  unfold dictInsert at h
  by_cases hany : d.any (fun q => q.1 == k) = true
  · rw [if_pos hany] at h
    obtain ⟨q, hq, hqe⟩ := List.mem_map.mp h
    by_cases hqk : q.1 = k
    · right; rw [if_pos (by simp [hqk])] at hqe; exact hqe.symm
    · left; rw [if_neg (by simp [hqk])] at hqe; exact hqe ▸ hq
  · rw [if_neg hany] at h
    rcases List.mem_append.mp h with h1 | h1
    · exact Or.inl h1
    · exact Or.inr (List.mem_singleton.mp h1)

/-- Every pair of a folded record stems from one of the folded children
(key = stripped tag, value = text) or from the initial dict. -/
theorem mem_foldl_dictStep (cs : List XElem) :
    ∀ (d : Dict) (kv : String × Option String),
    kv ∈ cs.foldl dictStep d →
    kv ∈ d ∨ ∃ c ∈ cs, kv = (stripTag c.tag, c.text) := by
  induction cs with
  | nil => intro d kv h; exact Or.inl h
  | cons c cs ih =>
    intro d kv h
    rw [List.foldl_cons] at h
    rcases ih (dictStep d c) kv h with h1 | ⟨c2, hc2, he⟩
    · rcases mem_dictInsert d (stripTag c.tag) c.text kv h1 with h2 | h2
      · exact Or.inl h2
      · exact Or.inr ⟨c, List.mem_cons_self c cs, h2⟩
    · exact Or.inr ⟨c2, List.mem_cons_of_mem c hc2, he⟩

/-- Inserting an already-present key keeps the size; a fresh key adds one
entry. -/
theorem dictInsert_length (d : Dict) (k : String) (v : Option String) :
    (dictInsert d k v).length
      = if d.any (fun q => q.1 == k) = true then d.length else d.length + 1 := by
  unfold dictInsert
  by_cases hany : d.any (fun q => q.1 == k) = true
  · rw [if_pos hany, if_pos hany, List.length_map]
  · rw [if_neg hany, if_neg hany, List.length_append, List.length_cons,
      List.length_nil]

/-- The folded record grows by at most one entry per child. -/
theorem foldl_dictStep_length_le (cs : List XElem) :
    ∀ d : Dict, (cs.foldl dictStep d).length ≤ d.length + cs.length := by
  induction cs with
  | nil => intro d; simp
  | cons c cs ih =>
    intro d
    rw [List.foldl_cons]
    calc (cs.foldl dictStep (dictStep d c)).length
        ≤ (dictStep d c).length + cs.length := ih (dictStep d c)
      _ ≤ (d.length + 1) + cs.length := by
          have := dictInsert_length d (stripTag c.tag) c.text
          unfold dictStep
          rw [this]
          by_cases h : d.any (fun q => q.1 == stripTag c.tag) = true <;>
            simp [h]
      _ = d.length + (c :: cs).length := by simp [List.length_cons]; omega

/-- The inserted key is present afterwards. -/
theorem any_key_dictInsert_self (d : Dict) (k : String) (v : Option String) :
    (dictInsert d k v).any (fun q => q.1 == k) = true := by
  unfold dictInsert
  by_cases hany : d.any (fun q => q.1 == k) = true
  · rw [if_pos hany]
    obtain ⟨q, hq, hqp⟩ := List.any_eq_true.mp hany
    refine List.any_eq_true.mpr ⟨(k, v), List.mem_map.mpr ⟨q, hq, ?_⟩, by simp⟩
    simp [hqp]
  · rw [if_neg hany]
    simp

/-- Insertion never removes a present key. -/
theorem any_key_dictInsert_mono (d : Dict) (k k' : String) (v : Option String)
    (h : d.any (fun q => q.1 == k') = true) :
    (dictInsert d k v).any (fun q => q.1 == k') = true := by
  unfold dictInsert
  by_cases hany : d.any (fun q => q.1 == k) = true
  · rw [if_pos hany]
    obtain ⟨q, hq, hqp⟩ := List.any_eq_true.mp h
    by_cases hqk : q.1 = k
    · refine List.any_eq_true.mpr ⟨(k, v), List.mem_map.mpr ⟨q, hq, ?_⟩, ?_⟩
      · simp [hqk]
      · have : k = k' := by rw [← hqk]; exact (by simpa using hqp)
        simp [this]
    · refine List.any_eq_true.mpr ⟨q, List.mem_map.mpr ⟨q, hq, ?_⟩, hqp⟩
      rw [if_neg (by simp [hqk])]
  · rw [if_neg hany]
    obtain ⟨q, hq, hqp⟩ := List.any_eq_true.mp h
    exact List.any_eq_true.mpr ⟨q, List.mem_append_left _ hq, hqp⟩

/-- Folding children with at least one key already present in the dict
yields at least one in-place overwrite, so the final size is strictly
below the additive bound. -/
theorem foldl_dictStep_length_lt_of_hit (cs : List XElem) :
    ∀ d : Dict,
    (∃ c ∈ cs, d.any (fun q => q.1 == stripTag c.tag) = true) →
    (cs.foldl dictStep d).length + 1 ≤ d.length + cs.length := by
  induction cs with
  | nil => intro d h; obtain ⟨c, hc, _⟩ := h; simp at hc
  | cons c cs ih =>
    intro d h
    rw [List.foldl_cons]
    obtain ⟨c2, hc2, hkey⟩ := h
    rcases List.mem_cons.mp hc2 with h1 | h1
    · subst h1
      have hstep : (dictStep d c2).length = d.length := by
        unfold dictStep
        rw [dictInsert_length, if_pos hkey]
      calc (cs.foldl dictStep (dictStep d c2)).length + 1
          ≤ ((dictStep d c2).length + cs.length) + 1 := by
            have := foldl_dictStep_length_le cs (dictStep d c2)
            omega
        _ = (d.length + cs.length) + 1 := by rw [hstep]
        _ = d.length + (c2 :: cs).length := by simp [List.length_cons]; omega
    · have hkey2 : (dictStep d c).any (fun q => q.1 == stripTag c2.tag) = true :=
        any_key_dictInsert_mono d (stripTag c.tag) (stripTag c2.tag) c.text hkey
      calc (cs.foldl dictStep (dictStep d c)).length + 1
          ≤ (dictStep d c).length + cs.length := ih (dictStep d c) ⟨c2, h1, hkey2⟩
        _ ≤ (d.length + 1) + cs.length := by
            unfold dictStep
            rw [dictInsert_length]
            by_cases hx : d.any (fun q => q.1 == stripTag c.tag) = true <;>
              simp [hx]
        _ = d.length + (c :: cs).length := by simp [List.length_cons]; omega

/-- Two children with the same stripped tag force an overwrite: the folded
record is strictly smaller than the number of folded children. -/
theorem foldl_dictStep_length_lt_of_dup (cs : List XElem) :
    ∀ (d : Dict) (t : String),
    2 ≤ cs.countP (fun c => stripTag c.tag == t) →
    (cs.foldl dictStep d).length + 1 ≤ d.length + cs.length := by
  induction cs with
  | nil => intro d t h; simp at h
  | cons c cs ih =>
    intro d t h
    rw [List.foldl_cons]
    by_cases hc : (stripTag c.tag == t) = true
    · have hcnt : 1 ≤ cs.countP (fun c => stripTag c.tag == t) := by
        rw [List.countP_cons, if_pos hc] at h
        omega
      have hpos : 0 < cs.countP (fun c => stripTag c.tag == t) := by omega
      obtain ⟨c2, hc2, hc2t⟩ := List.countP_pos_iff.mp hpos
      have hkey : (dictStep d c).any (fun q => q.1 == stripTag c2.tag) = true := by
        have ht : stripTag c2.tag = stripTag c.tag := by
          have h1 : stripTag c2.tag = t := by simpa using hc2t
          have h2 : stripTag c.tag = t := by simpa using hc
          rw [h1, h2]
        rw [ht]
        exact any_key_dictInsert_self d (stripTag c.tag) c.text
      calc (cs.foldl dictStep (dictStep d c)).length + 1
          ≤ (dictStep d c).length + cs.length :=
            foldl_dictStep_length_lt_of_hit cs (dictStep d c) ⟨c2, hc2, hkey⟩
        _ ≤ (d.length + 1) + cs.length := by
            unfold dictStep
            rw [dictInsert_length]
            by_cases hx : d.any (fun q => q.1 == stripTag c.tag) = true <;>
              simp [hx]
        _ = d.length + (c :: cs).length := by simp [List.length_cons]; omega
    · have hcnt : 2 ≤ cs.countP (fun c => stripTag c.tag == t) := by
        rw [List.countP_cons, if_neg hc] at h
        omega
      calc (cs.foldl dictStep (dictStep d c)).length + 1
          ≤ (dictStep d c).length + cs.length := ih (dictStep d c) t hcnt
        _ ≤ (d.length + 1) + cs.length := by
            unfold dictStep
            rw [dictInsert_length]
            by_cases hx : d.any (fun q => q.1 == stripTag c.tag) = true <;>
              simp [hx]
        _ = d.length + (c :: cs).length := by simp [List.length_cons]; omega

/-! ### Claim C3 -/

/-- C3: for every well-formed XML document containing N descendant
elements named `row`, `download_and_read_xml` returns exactly
`min 3 N` sample records in document order (record i is built from the
i-th found row); every recorded (key, value) pair of a sampled record
comes from one of that row's first 5 direct children, with the key being
the child's tag with any namespace prefix (up to and including the last
brace) stripped and the value the child's text. -/
theorem xml_sample_min3_stripped
    (w : XmlWorld) (fs : Fs) (b : List Nat) (root : XElem)
    (hh : w.http = .ok b) (hp : w.parseXml b = .ok root) :
    (download_and_read_xml w fs).2.2
        = some (((findRowsE root).take 3).map xmlRecord)
    ∧ (((findRowsE root).take 3).map xmlRecord).length = min 3 (findRowsE root).length
    ∧ (∀ row ∈ (findRowsE root).take 3, ∀ kv ∈ xmlRecord row,
        ∃ c ∈ row.children.take 5, kv = (stripTag c.tag, c.text)) := by
  refine ⟨?_, ?_, ?_⟩
  · simp [download_and_read_xml, download_and_read_xml_body, hh, hp,
      fsExists_fsWrite, xmlSampleLoop_snd]
  · rw [List.length_map, List.length_take]
  · intro row _ kv hkv
    rw [xmlRecord_eq_foldl] at hkv
    rcases mem_foldl_dictStep (row.children.take 5) [] kv hkv with h1 | h1
    · simp at h1
    · exact h1

/-- Concrete XML tree used by the C3 witness: a root with two `row`
descendants, one empty and one with a namespaced child and a plain
child. -/
def c3Root : XElem :=
  .mk "response" none
    [.mk "row" none [],
     .mk "row" (some "txt")
       [.mk "\x7bns\x7da" (some "1") [], .mk "b" none []]]

/-- World for the C3 witness. -/
def c3World : XmlWorld := ⟨.ok [1, 2], fun _ => .ok c3Root⟩

/-- Witness for C3: two rows found, two records returned in order, the
namespaced tag `{ns}a` recorded as bare `a`. -/
theorem xml_sample_min3_stripped_witness :
    (download_and_read_xml c3World []).2.2
        = some [[], [("a", some "1"), ("b", none)]]
    ∧ (((findRowsE c3Root).take 3).map xmlRecord).length
        = min 3 (findRowsE c3Root).length :=
  ⟨(xml_sample_min3_stripped c3World [] [1, 2] c3Root rfl rfl).1,
   (xml_sample_min3_stripped c3World [] [1, 2] c3Root rfl rfl).2.1⟩

/-! ### Claim C10 -/

/-- C10: whenever the first 5 direct children of a sampled row contain two
or more children with the same namespace-stripped tag `t`, the built
record maps `t` to the text of the last such child among the first 5
(later duplicates overwrite earlier ones), and the record therefore has
strictly fewer than `min 5 (number of children)` entries. -/
theorem xml_duplicate_tag_last_wins (row : XElem) (t : String)
    (hdup : 2 ≤ (row.children.take 5).countP (fun c => stripTag c.tag == t)) :
    dictLookup (xmlRecord row) t
      = (((row.children.take 5).filter (fun c => stripTag c.tag == t)).getLast?).map
          (fun c => c.text)
    ∧ (xmlRecord row).length < min 5 row.children.length := by
  constructor
  · rw [xmlRecord_eq_foldl, dictLookup_foldl]
    cases ((row.children.take 5).filter (fun c => stripTag c.tag == t)).getLast? with
    | none => rfl
    | some c => rfl
  · have h1 := foldl_dictStep_length_lt_of_dup (row.children.take 5) [] t hdup
    have h2 : (row.children.take 5).length = min 5 row.children.length :=
      List.length_take 5 row.children
    rw [xmlRecord_eq_foldl]
    simp at h1
    omega

/-- Row used by the C10 witness: three children, tags a, a, b. -/
def c10Row : XElem :=
  .mk "row" none
    [.mk "a" (some "1") [], .mk "a" (some "2") [], .mk "b" none []]

/-- Witness for C10: with children tagged a, a, b the record binds `a` to
the text of the *second* `a` child and has 2 < min 5 3 entries. -/
theorem xml_duplicate_tag_last_wins_witness :
    dictLookup (xmlRecord c10Row) "a" = some (some "2")
    ∧ (xmlRecord c10Row).length < min 5 c10Row.children.length :=
  ⟨(xml_duplicate_tag_last_wins c10Row "a" (by decide)).1,
   (xml_duplicate_tag_last_wins c10Row "a" (by decide)).2⟩

/-! ### Claim C2 -/

/-- World in which the download succeeds but the body is malformed: the
XML parser raises on any input. -/
def badXmlWorld : XmlWorld :=
  ⟨.ok [60, 99], fun _ => .error "ParseError: no element found"⟩

/-- C2 as stated is false: with an HTTP-successful download whose bytes
fail to parse, the exception is caught and reported and `None` is
returned, but the function does NOT attempt to delete the already-written
temporary file — cleanup sits inside the `try` after sampling, so the
file is still on disk and no removal is logged. -/
theorem xml_parse_error_leaves_temp_file :
    (download_and_read_xml badXmlWorld []).2.2 = none
    ∧ fsExists (download_and_read_xml badXmlWorld []).2.1 xmlTempFile = true
    ∧ XOut.removed xmlTempFile ∉ (download_and_read_xml badXmlWorld []).1 :=
  ⟨rfl, rfl, by decide⟩

/-- C2 (amended): when the HTTP GET succeeds, the bytes are written to the
temporary file and the XML parse then raises, the exception is caught and
reported and the function returns `None`; however no temporary-file
cleanup is attempted — the file (holding the downloaded bytes) remains on
disk, because the cleanup code is inside the `try` block after sampling
and is skipped when the parse raises. -/
theorem xml_parse_error_caught_no_cleanup
    (w : XmlWorld) (fs : Fs) (b : List Nat) (e : String)
    (hh : w.http = .ok b) (hp : w.parseXml b = .error e) :
    download_and_read_xml w fs =
      ([XOut.downloading xmlUrl, XOut.downloaded xmlTempFile,
        XOut.errorMsg ("Error downloading and reading XML: " ++ e)],
       fsWrite fs xmlTempFile b, none)
    ∧ fsExists (fsWrite fs xmlTempFile b) xmlTempFile = true := by
  constructor
  · simp [download_and_read_xml, download_and_read_xml_body, hh, hp]
  · exact fsExists_fsWrite fs xmlTempFile b

/-- Witness for the amended C2: the concrete malformed-body world ends
with the error logged, `None` returned, and the written file still
present. -/
theorem xml_parse_error_caught_no_cleanup_witness :
    download_and_read_xml badXmlWorld [] =
      ([XOut.downloading xmlUrl, XOut.downloaded xmlTempFile,
        XOut.errorMsg
          "Error downloading and reading XML: ParseError: no element found"],
       [(xmlTempFile, [60, 99])], none)
    ∧ fsExists (fsWrite [] xmlTempFile [60, 99]) xmlTempFile = true :=
  xml_parse_error_caught_no_cleanup badXmlWorld [] [60, 99]
    "ParseError: no element found" rfl rfl

/-! ### Claim C4 -/

/-- C4: whenever the HTTP GET fails (transport failure or non-2xx status,
e.g. 404, surfaced by `raise_for_status`), `download_and_read_xml` and
`access_csv_with_pandas` return `None` with the filesystem completely
untouched — no temporary file is created or left behind, because the
status check precedes the file write. -/
theorem http_failure_no_temp_file
    (w : XmlWorld) (cw : CsvWorld) (fs gs : Fs) (e e' : String)
    (hx : w.http = .error e) (hc : cw.http = .error e') :
    download_and_read_xml w fs =
      ([XOut.downloading xmlUrl,
        XOut.errorMsg ("Error downloading and reading XML: " ++ e)], fs, none)
    ∧ access_csv_with_pandas cw gs =
      ([COut.downloading csvUrl,
        COut.errorMsg ("Error accessing CSV with pandas: " ++ e')], gs, none) := by
  constructor
  · simp [download_and_read_xml, download_and_read_xml_body, hx]
  · simp [access_csv_with_pandas, access_csv_with_pandas_body, hc]

/-- Witness for C4 at a concrete 404 failure on an empty disk: both
fetchers report the error, return `None`, and the filesystem stays
empty. -/
theorem http_failure_no_temp_file_witness :
    download_and_read_xml ⟨.error "404 Client Error", fun _ => .error "x"⟩ [] =
      ([XOut.downloading xmlUrl,
        XOut.errorMsg "Error downloading and reading XML: 404 Client Error"],
       [], none)
    ∧ access_csv_with_pandas ⟨.error "404 Client Error", fun _ => .error "x"⟩ [] =
      ([COut.downloading csvUrl,
        COut.errorMsg "Error accessing CSV with pandas: 404 Client Error"],
       [], none) :=
  http_failure_no_temp_file
    ⟨.error "404 Client Error", fun _ => .error "x"⟩
    ⟨.error "404 Client Error", fun _ => .error "x"⟩
    [] [] "404 Client Error" "404 Client Error" rfl rfl

/-! ### Claim C5 -/

/-- C5: every exception raised anywhere in the body of any of the three
fetchers is caught at that fetcher's own boundary: the fetcher returns
`None` and the last console line is the fetcher's human-readable error
message.  (No exception propagates: in the embedding each fetcher is a
total function whose error branch is exactly the `except` handler.) -/
theorem fetchers_catch_all_errors :
    (∀ (h : Except String Json) (fs : Fs) (e : String),
      (access_json_api_body h).2 = .error e →
      (access_json_api h fs).2.2 = none
      ∧ (access_json_api h fs).1.getLast?
          = some (JOut.errorMsg ("Error accessing JSON API: " ++ e)))
    ∧ (∀ (w : XmlWorld) (fs : Fs) (e : String),
      (download_and_read_xml_body w fs).2.2 = .error e →
      (download_and_read_xml w fs).2.2 = none
      ∧ (download_and_read_xml w fs).1.getLast?
          = some (XOut.errorMsg ("Error downloading and reading XML: " ++ e)))
    ∧ (∀ (w : CsvWorld) (fs : Fs) (e : String),
      (access_csv_with_pandas_body w fs).2.2 = .error e →
      (access_csv_with_pandas w fs).2.2 = none
      ∧ (access_csv_with_pandas w fs).1.getLast?
          = some (COut.errorMsg ("Error accessing CSV with pandas: " ++ e))) := by
  refine ⟨?_, ?_, ?_⟩
  · intro h fs e he
    unfold access_json_api
    cases hb : access_json_api_body h with
    | mk out res =>
      rw [hb] at he
      simp only at he
      cases res with
      | error e2 =>
        cases he
        exact ⟨rfl, by simp [List.getLast?_concat]⟩
      | ok d => exact absurd he (by simp)
  · intro w fs e he
    unfold download_and_read_xml
    cases hb : download_and_read_xml_body w fs with
    | mk out rest =>
      cases rest with
      | mk fs' res =>
        rw [hb] at he
        simp only at he
        cases res with
        | error e2 =>
          cases he
          exact ⟨rfl, by simp [List.getLast?_concat]⟩
        | ok v => exact absurd he (by simp)
  · intro w fs e he
    unfold access_csv_with_pandas
    cases hb : access_csv_with_pandas_body w fs with
    | mk out rest =>
      cases rest with
      | mk fs' res =>
        rw [hb] at he
        simp only at he
        cases res with
        | error e2 =>
          cases he
          exact ⟨rfl, by simp [List.getLast?_concat]⟩
        | ok v => exact absurd he (by simp)

/-- Witness for C5: a concrete failing stage in each fetcher (HTTP error
for JSON, malformed XML body, HTTP error for CSV) each ends in `None`
with the error message as the final console line. -/
theorem fetchers_catch_all_errors_witness :
    ((access_json_api (.error "boom") []).2.2 = none
      ∧ (access_json_api (.error "boom") []).1.getLast?
          = some (JOut.errorMsg "Error accessing JSON API: boom"))
    ∧ ((download_and_read_xml badXmlWorld []).2.2 = none
      ∧ (download_and_read_xml badXmlWorld []).1.getLast?
          = some (XOut.errorMsg
              "Error downloading and reading XML: ParseError: no element found"))
    ∧ ((access_csv_with_pandas ⟨.error "boom", fun _ => .error "x"⟩ []).2.2 = none
      ∧ (access_csv_with_pandas ⟨.error "boom", fun _ => .error "x"⟩ []).1.getLast?
          = some (COut.errorMsg "Error accessing CSV with pandas: boom")) :=
  ⟨fetchers_catch_all_errors.1 (.error "boom") [] "boom" rfl,
   fetchers_catch_all_errors.2.1 badXmlWorld []
     "ParseError: no element found" rfl,
   fetchers_catch_all_errors.2.2 ⟨.error "boom", fun _ => .error "x"⟩ [] "boom" rfl⟩

/-- The JSON fetcher's body contains no filesystem operation: it returns
the filesystem unchanged for every input. -/
theorem access_json_api_fs_unchanged (h : Except String Json) (fs : Fs) :
    (access_json_api h fs).2.1 = fs := by
  unfold access_json_api
  cases hb : access_json_api_body h with
  | mk out res => cases res <;> rfl

/-! ### Claim C6 -/

/-- C6: on every successful invocation (one that reaches the normal
return), `download_and_read_xml` and `access_csv_with_pandas` remove
their temporary file before returning (the file is absent from the final
filesystem and the removal is logged), while `access_json_api` performs
no file I/O at all — it returns the filesystem unchanged for every input,
being the only fetcher whose body contains no filesystem operation. -/
theorem success_cleanup_and_json_no_file_io :
    (∀ (h : Except String Json) (fs : Fs), (access_json_api h fs).2.1 = fs)
    ∧ (∀ (w : XmlWorld) (fs : Fs) (b : List Nat) (root : XElem),
        w.http = .ok b → w.parseXml b = .ok root →
        fsExists (download_and_read_xml w fs).2.1 xmlTempFile = false
        ∧ XOut.removed xmlTempFile ∈ (download_and_read_xml w fs).1)
    ∧ (∀ (w : CsvWorld) (fs : Fs) (b : List Nat) (df : DataFrame),
        w.http = .ok b → w.readCsv b = .ok df →
        fsExists (access_csv_with_pandas w fs).2.1 csvTempFile = false
        ∧ COut.removed csvTempFile ∈ (access_csv_with_pandas w fs).1) := by
  refine ⟨?_, ?_, ?_⟩
  · exact access_json_api_fs_unchanged
  · intro w fs b root hh hp
    constructor
    · simp [download_and_read_xml, download_and_read_xml_body, hh, hp,
        fsExists_fsWrite, fsExists_fsRemove]
    · simp [download_and_read_xml, download_and_read_xml_body, hh, hp,
        fsExists_fsWrite]
  · intro w fs b df hh hr
    constructor
    · simp [access_csv_with_pandas, access_csv_with_pandas_body, hh, hr,
        fsExists_fsWrite, fsExists_fsRemove]
    · simp [access_csv_with_pandas, access_csv_with_pandas_body, hh, hr,
        fsExists_fsWrite]

/-- Frame used by the CSV witnesses: two columns, two rows, no numeric
column. -/
def c6Frame : DataFrame := ⟨["A", "B"], 2, "hd", [], "st"⟩

/-- Witness for C6: on concrete successful runs the XML and CSV paths end
with their temporary file gone and the removal logged, and the JSON path
hands back the starting filesystem. -/
theorem success_cleanup_and_json_no_file_io_witness :
    ((access_json_api (.ok Json.null) [("keep", [7])]).2.1 = [("keep", [7])])
    ∧ (fsExists (download_and_read_xml c3World []).2.1 xmlTempFile = false
       ∧ XOut.removed xmlTempFile ∈ (download_and_read_xml c3World []).1)
    ∧ (fsExists (access_csv_with_pandas ⟨.ok [5], fun _ => .ok c6Frame⟩ []).2.1
          csvTempFile = false
       ∧ COut.removed csvTempFile
          ∈ (access_csv_with_pandas ⟨.ok [5], fun _ => .ok c6Frame⟩ []).1) :=
  ⟨success_cleanup_and_json_no_file_io.1 (.ok Json.null) [("keep", [7])],
   success_cleanup_and_json_no_file_io.2.1 c3World [] [1, 2] c3Root rfl rfl,
   success_cleanup_and_json_no_file_io.2.2 ⟨.ok [5], fun _ => .ok c6Frame⟩ []
     [5] c6Frame rfl rfl⟩

/-! ### Claim C7 -/

/-- C7 as stated is false: with an HTTP-successful download whose body
fails to parse, both successive invocations of `download_and_read_xml`
complete (returning `None`), yet the temporary file is still on disk
after both calls. -/
theorem double_invoke_residual_file :
    (download_and_read_xml badXmlWorld []).2.2 = none
    ∧ (download_and_read_xml badXmlWorld
        (download_and_read_xml badXmlWorld []).2.1).2.2 = none
    ∧ fsExists (download_and_read_xml badXmlWorld
        (download_and_read_xml badXmlWorld []).2.1).2.1 xmlTempFile = true :=
  ⟨rfl, rfl, rfl⟩

/-- C7 (amended): invoking a fetcher twice in succession with the same
endpoint leaves no residual temporary file and the second call neither
errors nor changes its result because of the file left by the first call
(the `'wb'` write truncates/overwrites any existing file of the same
fixed name) — provided each invocation succeeds, i.e. reaches its normal
return; when an invocation fails after the write (e.g. a parse error) the
file does remain, see the counterexample. -/
theorem double_invoke_success_no_residual
    (w : XmlWorld) (cw : CsvWorld) (h : Except String Json)
    (fs gs hs : Fs) (b b' : List Nat) (root : XElem) (df : DataFrame)
    (hh : w.http = .ok b) (hp : w.parseXml b = .ok root)
    (hch : cw.http = .ok b') (hcr : cw.readCsv b' = .ok df) :
    (fsExists (download_and_read_xml w fs).2.1 xmlTempFile = false
     ∧ fsExists (download_and_read_xml w
          (download_and_read_xml w fs).2.1).2.1 xmlTempFile = false
     ∧ (download_and_read_xml w
          (download_and_read_xml w fs).2.1).2.2
        = (download_and_read_xml w fs).2.2
     ∧ ((download_and_read_xml w fs).2.2).isSome = true)
    ∧ (fsExists (access_csv_with_pandas cw gs).2.1 csvTempFile = false
     ∧ fsExists (access_csv_with_pandas cw
          (access_csv_with_pandas cw gs).2.1).2.1 csvTempFile = false
     ∧ (access_csv_with_pandas cw
          (access_csv_with_pandas cw gs).2.1).2.2
        = (access_csv_with_pandas cw gs).2.2
     ∧ ((access_csv_with_pandas cw gs).2.2).isSome = true)
    ∧ (access_json_api h ((access_json_api h hs).2.1)).2.1 = hs := by
  refine ⟨⟨?_, ?_, ?_, ?_⟩, ⟨?_, ?_, ?_, ?_⟩, ?_⟩
  · simp [download_and_read_xml, download_and_read_xml_body, hh, hp,
      fsExists_fsWrite, fsExists_fsRemove]
  · simp [download_and_read_xml, download_and_read_xml_body, hh, hp,
      fsExists_fsWrite, fsExists_fsRemove]
  · simp [download_and_read_xml, download_and_read_xml_body, hh, hp,
      fsExists_fsWrite]
  · simp [download_and_read_xml, download_and_read_xml_body, hh, hp,
      fsExists_fsWrite]
  · simp [access_csv_with_pandas, access_csv_with_pandas_body, hch, hcr,
      fsExists_fsWrite, fsExists_fsRemove]
  · simp [access_csv_with_pandas, access_csv_with_pandas_body, hch, hcr,
      fsExists_fsWrite, fsExists_fsRemove]
  · simp [access_csv_with_pandas, access_csv_with_pandas_body, hch, hcr,
      fsExists_fsWrite]
  · simp [access_csv_with_pandas, access_csv_with_pandas_body, hch, hcr,
      fsExists_fsWrite]
  · rw [access_json_api_fs_unchanged h ((access_json_api h hs).2.1),
      access_json_api_fs_unchanged h hs]

/-- Witness for the amended C7 on concrete successful worlds: no residual
file after two XML calls, two CSV calls, or two JSON calls, and the
repeated calls return the same (present) results. -/
theorem double_invoke_success_no_residual_witness :
    (fsExists (download_and_read_xml c3World
        (download_and_read_xml c3World []).2.1).2.1 xmlTempFile = false
     ∧ ((download_and_read_xml c3World []).2.2).isSome = true)
    ∧ (fsExists (access_csv_with_pandas ⟨.ok [5], fun _ => .ok c6Frame⟩
        (access_csv_with_pandas ⟨.ok [5], fun _ => .ok c6Frame⟩ []).2.1).2.1
          csvTempFile = false
     ∧ ((access_csv_with_pandas ⟨.ok [5], fun _ => .ok c6Frame⟩ []).2.2).isSome
          = true) :=
  ⟨⟨(double_invoke_success_no_residual c3World ⟨.ok [5], fun _ => .ok c6Frame⟩
      (.ok Json.null) [] [] [] [1, 2] [5] c3Root c6Frame rfl rfl rfl rfl).1.2.1,
    (double_invoke_success_no_residual c3World ⟨.ok [5], fun _ => .ok c6Frame⟩
      (.ok Json.null) [] [] [] [1, 2] [5] c3Root c6Frame rfl rfl rfl rfl).1.2.2.2⟩,
   ⟨(double_invoke_success_no_residual c3World ⟨.ok [5], fun _ => .ok c6Frame⟩
      (.ok Json.null) [] [] [] [1, 2] [5] c3Root c6Frame rfl rfl rfl rfl).2.1.2.1,
    (double_invoke_success_no_residual c3World ⟨.ok [5], fun _ => .ok c6Frame⟩
      (.ok Json.null) [] [] [] [1, 2] [5] c3Root c6Frame rfl rfl rfl rfl).2.1.2.2.2⟩⟩

/-! ### Claim C8 -/

/-- C8: for every successfully loaded CSV frame,
`access_csv_with_pandas` prints the first `min 5 K` column names joined
by commas and always appends the ellipsis marker `"..."` afterwards —
also when the frame has 5 or fewer columns, in which case every column
name was already shown. -/
theorem csv_columns_ellipsis
    (w : CsvWorld) (fs : Fs) (b : List Nat) (df : DataFrame)
    (hh : w.http = .ok b) (hr : w.readCsv b = .ok df) :
    COut.columnsLine (String.intercalate ", " (df.columns.take 5) ++ "...")
        ∈ (access_csv_with_pandas w fs).1
    ∧ (df.columns.take 5).length = min 5 df.columns.length := by
  constructor
  · simp [access_csv_with_pandas, access_csv_with_pandas_body, hh, hr,
      fsExists_fsWrite]
  · exact List.length_take 5 df.columns

/-- Witness for C8 on a 2-column frame: all column names are shown and
the ellipsis is still appended. -/
theorem csv_columns_ellipsis_witness :
    COut.columnsLine "A, B..."
        ∈ (access_csv_with_pandas ⟨.ok [5], fun _ => .ok c6Frame⟩ []).1
    ∧ (c6Frame.columns.take 5).length = min 5 c6Frame.columns.length :=
  csv_columns_ellipsis ⟨.ok [5], fun _ => .ok c6Frame⟩ [] [5] c6Frame rfl rfl
